import Mathlib

/-!
Verification of the metacamel group-resolution and report-generation core.

Shallow embedding of the `akokai/metacamel` repository: the logging
configuration value in `src/camelid/logconf.py`, the parameter-building
steps of the test script `src/camelid/tests/try_hypertext.py`, and the
group-resolution / report-assembly core.  The modules `camelid/cmgroup.py`,
`camelid/hypertext.py` and `camelid/env.py` are not present in the source
tree, so the core entity (`MaterialGroup`), the resolution step and the
report assembler are modelled from the specification's contracts; each such
definition carries a doc comment saying so.
-/

namespace Metacamel

/-- A Python scalar value as it appears in the parameter dictionaries of
`try_hypertext.py` (integers such as `materialid` and strings such as
`name`). -/
inductive PValue where
  | int (n : Int)
  | str (s : String)
  deriving DecidableEq

/-- A Python `dict` with string keys, modelled as an insertion-ordered
association list (Python dicts preserve insertion order). -/
abbrev Dict := List (String × PValue)

/-- Python `d[k] = v` semantics on the association-list model: if the key is
present its value is replaced in place (position kept), otherwise the pair
is appended at the end. -/
def setKey (d : Dict) (k : String) (v : PValue) : Dict :=
  if d.any (fun p => p.1 = k) then
    d.map (fun p => if p.1 = k then (k, v) else p)
  else d ++ [(k, v)]

/-- Python `d.update(kvs)` semantics: apply `setKey` for each pair of `kvs`
in order. -/
def updEntries (d : Dict) (kvs : List (String × PValue)) : Dict :=
  kvs.foldl (fun acc kv => setKey acc kv.1 kv.2) d

/-! ## A small heap model for the mutable dictionaries of the test script

`try_hypertext.py` mutates dictionaries in place (`BASE_PARAMS.copy()`
followed by `.update(...)`), so the script is embedded with an explicit
heap of dictionary objects addressed by allocation order; `copy` allocates
a fresh object and `update` mutates one object in place. -/

abbrev Addr := Nat

abbrev Heap := List Dict

/-- Allocate a fresh dictionary object on the heap, returning its address. -/
def alloc (h : Heap) (d : Dict) : Heap × Addr :=
  (h ++ [d], h.length)

/-- Read the dictionary object stored at an address. -/
def heapGet (h : Heap) (a : Addr) : Dict :=
  h.getD a []

/-- Overwrite the dictionary object stored at an address. -/
def heapSet (h : Heap) (a : Addr) (d : Dict) : Heap :=
  h.set a d

/-- Python `d.copy()`: allocate a fresh object holding the same entries. -/
def dictCopy (h : Heap) (a : Addr) : Heap × Addr :=
  alloc h (heapGet h a)

/-- Python `d.update(kvs)`: mutate the object at `a` in place. -/
def dictUpdate (h : Heap) (a : Addr) (kvs : List (String × PValue)) : Heap :=
  heapSet h a (updEntries (heapGet h a) kvs)

/-- The entries `par1.update({'materialid': 1, 'name': 'foo_group'})` gives
to the first group's parameters (`try_hypertext.py`, line 16). -/
def par1Updates : List (String × PValue) :=
  [("materialid", .int 1), ("name", .str "foo_group")]

/-- The entries `par2.update({'materialid': 2, 'name': 'bar_group'})` gives
to the second group's parameters (`try_hypertext.py`, line 17). -/
def par2Updates : List (String × PValue) :=
  [("materialid", .int 2), ("name", .str "bar_group")]

/-- The successive heap states of the parameter-building steps of
`try_hypertext.py` (lines 15-17), starting from an arbitrary content of
the shared `BASE_PARAMS` template (its definition lives in the absent
`camelid/cmgroup.py`). -/
structure ScriptTrace where
  baseAddr : Addr
  par1Addr : Addr
  par2Addr : Addr
  afterCopies : Heap
  afterPar1Update : Heap
  afterPar2Update : Heap

/-- Run the parameter-building steps of `try_hypertext.py`:
`par1, par2 = BASE_PARAMS.copy(), BASE_PARAMS.copy()` then
`par1.update({...})` then `par2.update({...})`, recording each state. -/
def runScript (base : Dict) : ScriptTrace :=
  let (h0, aBase) := alloc [] base
  let (h1, a1) := dictCopy h0 aBase
  let (h2, a2) := dictCopy h1 aBase
  let h3 := dictUpdate h2 a1 par1Updates
  let h4 := dictUpdate h3 a2 par2Updates
  ⟨aBase, a1, a2, h2, h3, h4⟩

/-! ## The group-resolution core, modelled from the spec -/

/-- Modelled from the spec: the deduplication policy of §4.1 of the absent
`camelid/cmgroup.py` — "identifiers are compared by exact value equality;
first occurrence wins, order of first appearance is preserved".  The head
of the input is kept and every later occurrence of it is removed before
deduplicating the rest. -/
def dedupFirst : List Nat → List Nat
  | [] => []
  | x :: xs => x :: dedupFirst (xs.filter (fun y => y ≠ x))
termination_by l => l.length
decreasing_by
  simp only [List.length_cons]
  exact Nat.lt_succ_of_le (List.length_filter_le _ _)

/-- Modelled from the spec: the `MaterialGroup` entity of §3 and §4.1
(the absent `camelid/cmgroup.py`).  Canonical identifiers are opaque
tokens, taken here to be naturals. -/
structure MaterialGroup where
  materialId : Nat
  name : String
  searchParams : Dict
  resolved : Bool
  resolvedIdentifiers : List Nat
  unresolvedHints : List String
  deriving DecidableEq

/-- Construct an unresolved group from its parameters, as the spec's
lifecycle describes ("created with parameters only (unresolved)"). -/
def mkGroup (mid : Nat) (nm : String) (params : Dict) : MaterialGroup :=
  ⟨mid, nm, params, false, [], []⟩

/-- Modelled from the spec: the Identifier Resolver collaborator contract
of §4.3 — given search parameters it returns an identifier sequence plus
unmatched hints, or signals an unrecoverable failure. -/
abbrev Resolver := Dict → Except String (List Nat × List String)

/-- The error taxonomy of resolution (§7). -/
inductive ResolveError where
  | alreadyResolved
  | resolutionFailed (reason : String)
  deriving DecidableEq

/-- Modelled from the spec: `MaterialGroup.resolve` of §4.1 (the absent
`camelid/cmgroup.py`).  Single-shot: a second call fails with
`AlreadyResolved`; a Resolver failure leaves the group unresolved; on
success the deduplicated, order-preserving identifier sequence is stored
and unmatched hints are recorded.  The returned group is the (possibly
updated) state; the optional error reports failure. -/
def MaterialGroup.resolve (g : MaterialGroup) (r : Resolver) :
    MaterialGroup × Option ResolveError :=
  if g.resolved then (g, some .alreadyResolved)
  else
    match r g.searchParams with
    | .error reason => (g, some (.resolutionFailed reason))
    | .ok (ids, unmatched) =>
        ({ g with
            resolved := true
            resolvedIdentifiers := dedupFirst ids
            unresolvedHints := unmatched }, none)

/-! ## The report assembler, modelled from the spec -/

/-- One listing entry of the directory page: name, material id, count of
resolved identifiers, and the links to the group's identifier pages
(§3, §4.2). -/
structure DirEntry where
  name : String
  materialId : Nat
  count : Nat
  links : List Nat
  deriving DecidableEq

/-- The top-level directory page: one entry per material group (§3). -/
structure DirectoryPage where
  entries : List DirEntry
  deriving DecidableEq

/-- A detail page for one canonical identifier (§3). -/
structure DetailPage where
  identifier : Nat
  deriving DecidableEq

/-- The complete linked report tree returned by `render` (§4.2). -/
structure ReportTree where
  directory : DirectoryPage
  detailPages : List DetailPage
  deriving DecidableEq

/-- The structural error taxonomy of report assembly (§7). -/
inductive AssembleError where
  | notResolved
  | duplicateMaterialId
  | emptyReport
  deriving DecidableEq

/-- The directory entry rendered for one group. -/
def entryOf (g : MaterialGroup) : DirEntry :=
  ⟨g.name, g.materialId, g.resolvedIdentifiers.length, g.resolvedIdentifiers⟩

/-- Modelled from the spec: `buildDirectory` of §4.2 (the absent
`camelid/hypertext.py`).  Requires every group to be resolved (otherwise
`NotResolved`); lists the groups in the order supplied, without sorting. -/
def buildDirectory (groups : List MaterialGroup) :
    Except AssembleError DirectoryPage :=
  if groups.all (fun g => g.resolved) then
    .ok ⟨groups.map entryOf⟩
  else .error .notResolved

/-- The union of the identifiers across all groups, in group order (the
"convenience aggregation step" of §4.2). -/
def identifierUnion (groups : List MaterialGroup) : List Nat :=
  groups.foldr (fun g acc => g.resolvedIdentifiers ++ acc) []

/-- Modelled from the spec: `buildDetailPages` of §4.2 (the absent
`camelid/hypertext.py`): exactly one detail page per distinct identifier,
in an order depending only on the identifier set — sorted by identifier
value, the spec's suggested stable order. -/
def buildDetailPages (identifiers : List Nat) : List DetailPage :=
  (List.insertionSort (fun a b => a ≤ b) (dedupFirst identifiers)).map
    (fun i => ⟨i⟩)

/-- Modelled from the spec: `render` of §4.2 (the absent
`camelid/hypertext.py`): fails with `EmptyReport` on no groups and with
`DuplicateMaterialId` on a shared `materialId` (regardless of other
fields); otherwise builds the directory and the detail pages for the
identifier union. -/
def render (groups : List MaterialGroup) : Except AssembleError ReportTree :=
  if groups.isEmpty then .error .emptyReport
  else if (groups.map (fun g => g.materialId)).Nodup then
    match buildDirectory groups with
    | .error e => .error e
    | .ok dir => .ok ⟨dir, buildDetailPages (identifierUnion groups)⟩
  else .error .duplicateMaterialId

/-! ## Properties of the deduplication policy -/

theorem mem_dedupFirst {a : Nat} : ∀ {l : List Nat}, a ∈ dedupFirst l ↔ a ∈ l := by
  intro l
  induction l using dedupFirst.induct with
  | case1 => simp [dedupFirst]
  | case2 x xs ih =>
    rw [dedupFirst]
    simp only [List.mem_cons, ih, List.mem_filter, decide_eq_true_eq]
    constructor
    · rintro (rfl | ⟨h, _⟩)
      · exact Or.inl rfl
      · exact Or.inr h
    · rintro (rfl | h)
      · exact Or.inl rfl
      · by_cases hx : a = x
        · exact Or.inl hx
        · exact Or.inr ⟨h, hx⟩

theorem nodup_dedupFirst : ∀ (l : List Nat), (dedupFirst l).Nodup := by
  intro l
  induction l using dedupFirst.induct with
  | case1 => simp [dedupFirst]
  | case2 x xs ih =>
    rw [dedupFirst]
    refine List.nodup_cons.2 ⟨?_, ih⟩
    intro hmem
    have := (mem_dedupFirst.1 hmem)
    simp only [List.mem_filter, decide_eq_true_eq] at this
    exact this.2 rfl

theorem dedupFirst_sublist : ∀ (l : List Nat), List.Sublist (dedupFirst l) l := by
  intro l
  induction l using dedupFirst.induct with
  | case1 => simp [dedupFirst]
  | case2 x xs ih =>
    rw [dedupFirst]
    exact List.Sublist.cons₂ x (ih.trans (List.filter_sublist xs))

theorem indexOf_filter_lt_iff {p : Nat → Bool} :
    ∀ {l : List Nat} {a b : Nat}, a ∈ l.filter p → b ∈ l.filter p →
      ((l.filter p).indexOf a < (l.filter p).indexOf b ↔
        l.indexOf a < l.indexOf b) := by
  intro l
  induction l with
  | nil => intro a b ha _; simp at ha
  | cons x xs ih =>
    intro a b ha hb
    by_cases hpx : p x
    · rw [List.filter_cons_of_pos hpx] at ha hb ⊢
      by_cases hax : a = x
      · subst hax
        rw [List.indexOf_cons_self, List.indexOf_cons_self]
        by_cases hbx : b = a
        · subst hbx; simp
        · rw [List.indexOf_cons_ne _ (Ne.symm hbx),
            List.indexOf_cons_ne _ (Ne.symm hbx)]
          simp
      · rw [List.indexOf_cons_ne _ (fun h => hax h.symm),
          List.indexOf_cons_ne _ (fun h => hax h.symm)]
        by_cases hbx : b = x
        · subst hbx
          rw [List.indexOf_cons_self, List.indexOf_cons_self]
          simp
        · rw [List.indexOf_cons_ne _ (fun h => hbx h.symm),
            List.indexOf_cons_ne _ (fun h => hbx h.symm)]
          have ha' : a ∈ xs.filter p := by
            rcases List.mem_cons.1 ha with h | h
            · exact absurd h hax
            · exact h
          have hb' : b ∈ xs.filter p := by
            rcases List.mem_cons.1 hb with h | h
            · exact absurd h hbx
            · exact h
          rw [Nat.succ_lt_succ_iff, Nat.succ_lt_succ_iff]
          exact ih ha' hb'
    · rw [List.filter_cons_of_neg (by simpa using hpx)] at ha hb ⊢
      have hax : a ≠ x := by
        intro h; subst h
        exact hpx (List.of_mem_filter ha)
      have hbx : b ≠ x := by
        intro h; subst h
        exact hpx (List.of_mem_filter hb)
      rw [List.indexOf_cons_ne _ (Ne.symm hax),
        List.indexOf_cons_ne _ (Ne.symm hbx), Nat.succ_lt_succ_iff]
      exact ih ha hb

theorem indexOf_dedupFirst_lt_iff :
    ∀ {l : List Nat} {a b : Nat}, a ∈ l → b ∈ l →
      ((dedupFirst l).indexOf a < (dedupFirst l).indexOf b ↔
        l.indexOf a < l.indexOf b) := by
  intro l
  induction l using dedupFirst.induct with
  | case1 => intro a b ha _; simp at ha
  | case2 x xs ih =>
    intro a b ha hb
    rw [dedupFirst]
    by_cases hax : a = x
    · subst hax
      rw [List.indexOf_cons_self, List.indexOf_cons_self]
      by_cases hba : b = a
      · subst hba; simp
      · rw [List.indexOf_cons_ne _ (Ne.symm hba),
          List.indexOf_cons_ne _ (Ne.symm hba)]
        simp
    · rw [List.indexOf_cons_ne _ (fun h => hax h.symm)]
      by_cases hbx : b = x
      · subst hbx
        rw [List.indexOf_cons_self, List.indexOf_cons_self]
        simp
      · rw [List.indexOf_cons_ne _ (fun h => hbx h.symm),
          List.indexOf_cons_ne _ (fun h => hax h.symm),
          List.indexOf_cons_ne _ (fun h => hbx h.symm),
          Nat.succ_lt_succ_iff, Nat.succ_lt_succ_iff]
        have ha' : a ∈ xs.filter (fun y => y ≠ x) := by
          rcases List.mem_cons.1 ha with h | h
          · exact absurd h hax
          · exact List.mem_filter.2 ⟨h, by simpa using hax⟩
        have hb' : b ∈ xs.filter (fun y => y ≠ x) := by
          rcases List.mem_cons.1 hb with h | h
          · exact absurd h hbx
          · exact List.mem_filter.2 ⟨h, by simpa using hbx⟩
        rw [ih ha' hb']
        exact indexOf_filter_lt_iff ha' hb'

/-! ## The logging configuration of `src/camelid/logconf.py` -/

/-- One formatter entry of the `dictConfig` dictionary. -/
structure FormatterConfig where
  format : String
  style : String
  deriving DecidableEq

/-- One handler entry of the `dictConfig` dictionary.  `sys.stdout` is
modelled by the string `"stdout"`. -/
structure HandlerConfig where
  className : String
  level : String
  formatter : String
  stream : String
  deriving DecidableEq

/-- One named logger entry of the `dictConfig` dictionary. -/
structure LoggerConfig where
  name : String
  level : String
  handlers : List String
  propagate : Bool
  deriving DecidableEq

/-- The root-logger entry of the `dictConfig` dictionary. -/
structure RootConfig where
  level : String
  handlers : List String
  deriving DecidableEq

/-- The shape of the `CONFIG` dictionary of `logconf.py`. -/
structure LogConfig where
  version : Nat
  disableExistingLoggers : Bool
  formatters : List (String × FormatterConfig)
  handlers : List (String × HandlerConfig)
  loggers : List LoggerConfig
  root : RootConfig
  deriving DecidableEq

/-- The `CONFIG` value of `src/camelid/logconf.py` (lines 10-58); the
commented-out logger entries are absent. -/
def CONFIG : LogConfig where
  version := 1
  disableExistingLoggers := false
  formatters :=
    [("default", ⟨"%(asctime)s %(name)s %(levelname)s %(message)s", "%"⟩)]
  handlers :=
    [("console", ⟨"logging.StreamHandler", "INFO", "default", "stdout"⟩)]
  loggers :=
    [⟨"camelid", "DEBUG", ["console"], false⟩,
     ⟨"pubchempy", "DEBUG", ["console"], false⟩]
  root := ⟨"DEBUG", []⟩

/-- The numeric severity of the standard Python logging level names. -/
def levelNum : String → Nat
  | "DEBUG" => 10
  | "INFO" => 20
  | "WARNING" => 30
  | "ERROR" => 40
  | "CRITICAL" => 50
  | _ => 0

/-- Look up a named logger entry of a configuration. -/
def lookupLogger (cfg : LogConfig) (n : String) : Option LoggerConfig :=
  cfg.loggers.find? (fun lc => lc.name = n)

/-- Look up a named handler entry of a configuration. -/
def lookupHandler (cfg : LogConfig) (n : String) : Option HandlerConfig :=
  (cfg.handlers.find? (fun p => p.1 = n)).map (fun p => p.2)

/-- The handlers a record on the given logger can reach: the logger's own
handlers, plus the root logger's handlers when the logger propagates (an
unconfigured logger falls through to the root). -/
def effectiveHandlers (cfg : LogConfig) (loggerName : String) : List String :=
  match lookupLogger cfg loggerName with
  | some lc => lc.handlers ++ (if lc.propagate then cfg.root.handlers else [])
  | none => cfg.root.handlers

/-- The severity threshold the logger itself applies to a record. -/
def loggerLevel (cfg : LogConfig) (loggerName : String) : Nat :=
  match lookupLogger cfg loggerName with
  | some lc => levelNum lc.level
  | none => levelNum cfg.root.level

/-- Whether a record of numeric severity `v` on the given logger is emitted
by the named handler: the handler must be reachable from the logger, the
record must pass the logger's threshold, and it must pass the handler's own
threshold (Python `logging` semantics for a `dictConfig` configuration). -/
def handlerEmits (cfg : LogConfig) (loggerName : String) (v : Nat)
    (hname : String) : Bool :=
  (effectiveHandlers cfg loggerName).contains hname &&
    decide (loggerLevel cfg loggerName ≤ v) &&
    (match lookupHandler cfg hname with
     | some hc => decide (levelNum hc.level ≤ v)
     | none => false)

/-! ## Concrete scenario data (the end-to-end scenario of §8) -/

/-- The first group's parameters (built from an empty template). -/
def fooParams : Dict := updEntries [] par1Updates

/-- The second group's parameters (built from an empty template). -/
def barParams : Dict := updEntries [] par2Updates

/-- The Resolver of the end-to-end scenario: identifiers `[4, 5]` for
group 1 and `[5, 6]` for group 2. -/
def scenarioResolver : Resolver := fun params =>
  if params = fooParams then .ok ([4, 5], [])
  else if params = barParams then .ok ([5, 6], [])
  else .error "unknown group"

/-- `foo_group` (material id 1), resolved against the scenario Resolver. -/
def fooGroup : MaterialGroup :=
  ((mkGroup 1 "foo_group" fooParams).resolve scenarioResolver).1

/-- `bar_group` (material id 2), resolved against the scenario Resolver. -/
def barGroup : MaterialGroup :=
  ((mkGroup 2 "bar_group" barParams).resolve scenarioResolver).1

/-- A Resolver that succeeds with zero identifiers and no unmatched hints. -/
def emptyResolver : Resolver := fun _ => .ok ([], [])

/-- A Resolver whose identifier sequence contains duplicates. -/
def dupResolver : Resolver := fun _ => .ok ([4, 5, 5, 4, 6], ["hint1"])

/-- An unresolved group used to exercise empty resolution. -/
def emptyGroup : MaterialGroup := mkGroup 3 "empty_group" []

/-- An unresolved group sharing `materialId` 1 with `fooGroup` but
differing in every other field. -/
def dupIdGroup : MaterialGroup := mkGroup 1 "other_group" barParams

/-- Membership in the identifier union across the groups. -/
theorem mem_identifierUnion (groups : List MaterialGroup) (i : Nat) :
    i ∈ identifierUnion groups ↔
      ∃ g ∈ groups, i ∈ g.resolvedIdentifiers := by
  induction groups with
  | nil => simp [identifierUnion]
  | cons g gs ih =>
    simp only [identifierUnion, List.foldr_cons, List.mem_append] at ih ⊢
    rw [ih]
    constructor
    · rintro (h | ⟨g1, hg1, hi1⟩)
      · exact ⟨g, List.mem_cons_self g gs, h⟩
      · exact ⟨g1, List.mem_cons_of_mem g hg1, hi1⟩
    · rintro ⟨g1, hg1, hi1⟩
      rcases List.mem_cons.1 hg1 with rfl | h
      · exact Or.inl hi1
      · exact Or.inr ⟨g1, h, hi1⟩

/-! ## The claims -/

/-- C2: for every group and every identifier sequence the Resolver returns
(duplicates included), the stored `resolvedIdentifiers` has no duplicates
(decided by value equality), keeps the first occurrence of each identifier,
and preserves the order of first appearance: the stored sequence is a
subsequence of the Resolver's result, its members are exactly the result's
members, and two identifiers are stored in the order of their first
occurrence in the result. -/
theorem resolve_stores_dedupedIdentifiers (g : MaterialGroup) (r : Resolver)
    (ids : List Nat) (un : List String)
    (hg : g.resolved = false) (hr : r g.searchParams = .ok (ids, un)) :
    ((g.resolve r).1).resolvedIdentifiers = dedupFirst ids ∧
      ((g.resolve r).1).resolvedIdentifiers.Nodup ∧
      (∀ x, x ∈ ((g.resolve r).1).resolvedIdentifiers ↔ x ∈ ids) ∧
      List.Sublist ((g.resolve r).1).resolvedIdentifiers ids ∧
      (∀ x y, x ∈ ids → y ∈ ids →
        (((g.resolve r).1).resolvedIdentifiers.indexOf x <
            ((g.resolve r).1).resolvedIdentifiers.indexOf y ↔
          ids.indexOf x < ids.indexOf y)) := by
  have hres : ((g.resolve r).1).resolvedIdentifiers = dedupFirst ids := by
    simp [MaterialGroup.resolve, hg, hr]
  rw [hres]
  exact ⟨rfl, nodup_dedupFirst ids, fun x => mem_dedupFirst,
    dedupFirst_sublist ids, fun x y hx hy => indexOf_dedupFirst_lt_iff hx hy⟩

/-- Witness for C2: a Resolver returning `[4, 5, 5, 4, 6]` yields the
stored sequence `[4, 5, 6]`. -/
theorem resolve_stores_dedupedIdentifiers_witness :
    (emptyGroup.resolved = false ∧
        dupResolver emptyGroup.searchParams = .ok ([4, 5, 5, 4, 6], ["hint1"])) ∧
      ((emptyGroup.resolve dupResolver).1).resolvedIdentifiers = [4, 5, 6] ∧
      (((emptyGroup.resolve dupResolver).1).resolvedIdentifiers =
          dedupFirst [4, 5, 5, 4, 6] ∧
        ((emptyGroup.resolve dupResolver).1).resolvedIdentifiers.Nodup ∧
        (∀ x, x ∈ ((emptyGroup.resolve dupResolver).1).resolvedIdentifiers ↔
          x ∈ [4, 5, 5, 4, 6]) ∧
        List.Sublist ((emptyGroup.resolve dupResolver).1).resolvedIdentifiers
          [4, 5, 5, 4, 6] ∧
        (∀ x y, x ∈ [4, 5, 5, 4, 6] → y ∈ [4, 5, 5, 4, 6] →
          ((((emptyGroup.resolve dupResolver).1).resolvedIdentifiers.indexOf x <
              (((emptyGroup.resolve dupResolver).1).resolvedIdentifiers.indexOf y)) ↔
            List.indexOf x [4, 5, 5, 4, 6] < List.indexOf y [4, 5, 5, 4, 6]))) :=
  ⟨⟨rfl, rfl⟩,
    by simp [emptyGroup, mkGroup, MaterialGroup.resolve, dupResolver, dedupFirst],
    resolve_stores_dedupedIdentifiers emptyGroup dupResolver
      [4, 5, 5, 4, 6] ["hint1"] rfl rfl⟩

/-- C4: calling `resolve` a second time on an already-resolved group always
fails with `AlreadyResolved`, and the group state — in particular its stored
`resolvedIdentifiers` — is unchanged. -/
theorem resolve_twice_fails_unchanged (g : MaterialGroup) (r : Resolver)
    (h : g.resolved = true) :
    (g.resolve r).2 = some ResolveError.alreadyResolved ∧
      (g.resolve r).1 = g ∧
      ((g.resolve r).1).resolvedIdentifiers = g.resolvedIdentifiers := by
  simp [MaterialGroup.resolve, h]

/-- Witness for C4: re-resolving the already-resolved `fooGroup`. -/
theorem resolve_twice_fails_unchanged_witness :
    fooGroup.resolved = true ∧
      ((fooGroup.resolve scenarioResolver).2 = some ResolveError.alreadyResolved ∧
        (fooGroup.resolve scenarioResolver).1 = fooGroup ∧
        ((fooGroup.resolve scenarioResolver).1).resolvedIdentifiers =
          fooGroup.resolvedIdentifiers) :=
  ⟨rfl, resolve_twice_fails_unchanged fooGroup scenarioResolver rfl⟩

/-- C7: a resolution that returns zero identifiers succeeds (no error), the
stored `resolvedIdentifiers` is empty, and the group still appears as a
directory entry with a count of zero. -/
theorem resolve_zero_identifiers_ok (g : MaterialGroup) (r : Resolver)
    (un : List String)
    (hg : g.resolved = false) (hr : r g.searchParams = .ok ([], un)) :
    (g.resolve r).2 = none ∧
      ((g.resolve r).1).resolvedIdentifiers = [] ∧
      ((g.resolve r).1).resolved = true ∧
      (∀ groups : List MaterialGroup, (g.resolve r).1 ∈ groups →
        (∀ x ∈ groups, x.resolved = true) →
        ∃ d, buildDirectory groups = .ok d ∧
          ∃ e ∈ d.entries, e.materialId = g.materialId ∧ e.name = g.name ∧
            e.count = 0) := by
  have h1 : (g.resolve r).1 = { g with resolved := true, resolvedIdentifiers := dedupFirst [], unresolvedHints := un } := by
    simp [MaterialGroup.resolve, hg, hr]
  have h2 : (g.resolve r).2 = none := by
    simp [MaterialGroup.resolve, hg, hr]
  have hnil : dedupFirst [] = [] := by simp [dedupFirst]
  refine ⟨h2, by rw [h1]; exact hnil, by rw [h1], ?_⟩
  intro groups hmem hall
  refine ⟨⟨groups.map entryOf⟩, ?_, ?_⟩
  · rw [buildDirectory, if_pos (List.all_eq_true.2 (fun x hx => hall x hx))]
  · refine ⟨entryOf ((g.resolve r).1), List.mem_map_of_mem entryOf hmem, ?_, ?_, ?_⟩
    · rw [h1]; rfl
    · rw [h1]; rfl
    · rw [h1]; simp [entryOf, hnil]

/-- Witness for C7: resolving `emptyGroup` with a Resolver returning no
identifiers, then listing it in a one-group directory. -/
theorem resolve_zero_identifiers_ok_witness :
    (emptyGroup.resolved = false ∧
        emptyResolver emptyGroup.searchParams = .ok ([], [])) ∧
      ((emptyGroup.resolve emptyResolver).2 = none ∧
        ((emptyGroup.resolve emptyResolver).1).resolvedIdentifiers = [] ∧
        ((emptyGroup.resolve emptyResolver).1).resolved = true ∧
        (∀ groups : List MaterialGroup,
          (emptyGroup.resolve emptyResolver).1 ∈ groups →
          (∀ x ∈ groups, x.resolved = true) →
          ∃ d, buildDirectory groups = .ok d ∧
            ∃ e ∈ d.entries, e.materialId = emptyGroup.materialId ∧
              e.name = emptyGroup.name ∧ e.count = 0)) :=
  ⟨⟨rfl, rfl⟩,
    resolve_zero_identifiers_ok emptyGroup emptyResolver [] rfl rfl⟩

/-- C6: `render` fails with `EmptyReport` exactly when the supplied group
sequence is empty; an empty input never yields a report tree. -/
theorem render_emptyReport_iff_empty (groups : List MaterialGroup) :
    render groups = .error AssembleError.emptyReport ↔ groups = [] := by
  constructor
  · intro h
    cases groups with
    | nil => rfl
    | cons g gs =>
      exfalso
      unfold render at h
      rw [if_neg (by simp)] at h
      by_cases hnd : (List.map (fun x => x.materialId) (g :: gs)).Nodup
      · rw [if_pos hnd] at h
        unfold buildDirectory at h
        by_cases hall : ((g :: gs).all fun x => x.resolved) = true
        · rw [if_pos hall] at h
          simp at h
        · rw [if_neg hall] at h
          simp at h
      · rw [if_neg hnd] at h
        simp at h
  · rintro rfl
    rfl

/-- C3: for groups with unique material ids (all resolved, as
`buildDirectory` requires), the directory page has exactly one entry per
supplied group, and the entries appear in exactly the supplied order — no
sorting or reordering. -/
theorem buildDirectory_one_entry_per_group_in_order
    (groups : List MaterialGroup)
    (hnd : (groups.map (fun g => g.materialId)).Nodup)
    (hres : ∀ g ∈ groups, g.resolved = true) :
    ∃ d, buildDirectory groups = .ok d ∧
      d.entries.length = groups.length ∧
      d.entries.map (fun e => e.materialId) =
        groups.map (fun g => g.materialId) ∧
      d.entries.map (fun e => e.name) = groups.map (fun g => g.name) := by
  refine ⟨⟨groups.map entryOf⟩, ?_, by simp, ?_, ?_⟩
  · rw [buildDirectory, if_pos (List.all_eq_true.2 (fun g hg => hres g hg))]
  · rw [List.map_map]
    rfl
  · rw [List.map_map]
    rfl

/-- Witness for C3: the directory over the two scenario groups. -/
theorem buildDirectory_one_entry_per_group_in_order_witness :
    ((([fooGroup, barGroup].map (fun g => g.materialId)).Nodup) ∧
        (∀ g ∈ [fooGroup, barGroup], g.resolved = true)) ∧
      (∃ d, buildDirectory [fooGroup, barGroup] = .ok d ∧
        d.entries.length = [fooGroup, barGroup].length ∧
        d.entries.map (fun e => e.materialId) =
          [fooGroup, barGroup].map (fun g => g.materialId) ∧
        d.entries.map (fun e => e.name) =
          [fooGroup, barGroup].map (fun g => g.name)) :=
  ⟨⟨by decide, by decide⟩,
    buildDirectory_one_entry_per_group_in_order [fooGroup, barGroup]
      (by decide) (by decide)⟩

/-- C5: whenever two distinct positions of the supplied group sequence
carry the same `materialId`, `render` fails with `DuplicateMaterialId`
(whatever the groups' other fields are), producing no report tree. -/
theorem render_duplicateMaterialId_fails (groups : List MaterialGroup)
    (i j : Nat) (hi : i < groups.length) (hj : j < groups.length)
    (hij : i ≠ j) (heq : groups[i].materialId = groups[j].materialId) :
    render groups = .error AssembleError.duplicateMaterialId := by
  have hne : groups.isEmpty = false := by
    cases groups with
    | nil => exact absurd hi (by simp)
    | cons a l => rfl
  have hnodup : ¬ (groups.map (fun g => g.materialId)).Nodup := by
    intro hd
    have hi2 : i < (groups.map (fun g => g.materialId)).length := by
      simpa using hi
    have hj2 : j < (groups.map (fun g => g.materialId)).length := by
      simpa using hj
    apply hij
    have hmap : (groups.map (fun g => g.materialId))[i] =
        (groups.map (fun g => g.materialId))[j] := by
      rw [List.getElem_map, List.getElem_map]
      exact heq
    exact (List.Nodup.getElem_inj_iff hd).1 hmap
  rw [render, hne]
  rw [if_neg (by simp), if_neg hnodup]

/-- Witness for C5: `fooGroup` (resolved, name `"foo_group"`) and
`dupIdGroup` (unresolved, different name and parameters) share material
id 1, and `render` rejects them. -/
theorem render_duplicateMaterialId_fails_witness :
    (0 < [fooGroup, dupIdGroup].length ∧ 1 < [fooGroup, dupIdGroup].length ∧
        (0 : Nat) ≠ 1 ∧
        [fooGroup, dupIdGroup][0].materialId =
          [fooGroup, dupIdGroup][1].materialId) ∧
      render [fooGroup, dupIdGroup] =
        .error AssembleError.duplicateMaterialId :=
  ⟨⟨by decide, by decide, by decide, by decide⟩,
    render_duplicateMaterialId_fails [fooGroup, dupIdGroup] 0 1
      (by decide) (by decide) (by decide) (by decide)⟩

/-- C9: the parameter-building steps of `try_hypertext.py` copy the shared
`BASE_PARAMS` template before updating: for any template content, after
both updates the template object is unchanged; after the first group's
update the second group's copy is still untouched; and the two final
parameter objects are each the update of the pristine template — mutating
one never alters the other. -/
theorem base_params_copied_before_update (base : Dict) :
    heapGet (runScript base).afterPar2Update (runScript base).baseAddr
        = base ∧
      heapGet (runScript base).afterPar1Update (runScript base).baseAddr
        = base ∧
      heapGet (runScript base).afterPar1Update (runScript base).par2Addr
        = base ∧
      heapGet (runScript base).afterPar1Update (runScript base).par1Addr
        = updEntries base par1Updates ∧
      heapGet (runScript base).afterPar2Update (runScript base).par1Addr
        = updEntries base par1Updates ∧
      heapGet (runScript base).afterPar2Update (runScript base).par2Addr
        = updEntries base par2Updates := by
  refine ⟨?_, ?_, ?_, ?_, ?_, ?_⟩ <;> rfl

/-- C10: in the `CONFIG` of `logconf.py` the only handler is the console
handler (threshold `INFO`, stream stdout), the `camelid` and `pubchempy`
loggers use it at level `DEBUG` without propagation, the root logger has
no handlers, and consequently no record below `INFO` severity on those
loggers is emitted by any configured handler. -/
theorem logconf_no_subINFO_record_emitted (lname : String)
    (hl : lname = "camelid" ∨ lname = "pubchempy")
    (v : Nat) (hv : v < levelNum "INFO") (hname : String) :
    CONFIG.handlers =
        [("console", ⟨"logging.StreamHandler", "INFO", "default", "stdout"⟩)] ∧
      lookupLogger CONFIG "camelid" =
        some ⟨"camelid", "DEBUG", ["console"], false⟩ ∧
      lookupLogger CONFIG "pubchempy" =
        some ⟨"pubchempy", "DEBUG", ["console"], false⟩ ∧
      CONFIG.root.handlers = [] ∧
      handlerEmits CONFIG lname v hname = false := by
  refine ⟨rfl, rfl, rfl, rfl, ?_⟩
  have hv20 : v < 20 := hv
  have hemits : ∀ nm : String, lookupLogger CONFIG nm =
        some ⟨nm, "DEBUG", ["console"], false⟩ →
      handlerEmits CONFIG nm v hname = false := by
    intro nm hnm
    rw [handlerEmits, effectiveHandlers, loggerLevel, hnm]
    by_cases hc : hname = "console"
    · subst hc
      simp [lookupHandler, CONFIG, levelNum]
      omega
    · rw [List.contains_eq_any_beq]
      simp [hc]
  rcases hl with rfl | rfl
  · exact hemits "camelid" rfl
  · exact hemits "pubchempy" rfl

/-- Witness for C10: a `DEBUG`-severity record on the `camelid` logger is
not emitted by the console handler. -/
theorem logconf_no_subINFO_record_emitted_witness :
    (("camelid" = "camelid" ∨ ("camelid" : String) = "pubchempy") ∧
        levelNum "DEBUG" < levelNum "INFO") ∧
      handlerEmits CONFIG "camelid" (levelNum "DEBUG") "console" = false :=
  ⟨⟨Or.inl rfl, by decide⟩,
    (logconf_no_subINFO_record_emitted "camelid" (Or.inl rfl)
      (levelNum "DEBUG") (by decide) "console").2.2.2.2⟩

/-- C8: detail-page building is deterministic in the identifier set: any
two identifier sequences with the same members (the same set) produce the
same detail pages in the same order — the pages are sorted by identifier
value, so the report output is reproducible. -/
theorem buildDetailPages_deterministic_on_set (l1 l2 : List Nat)
    (h : ∀ x, x ∈ l1 ↔ x ∈ l2) :
    buildDetailPages l1 = buildDetailPages l2 := by
  unfold buildDetailPages
  have hperm : List.Perm (dedupFirst l1) (dedupFirst l2) :=
    (List.perm_ext_iff_of_nodup (nodup_dedupFirst l1) (nodup_dedupFirst l2)).2
      (fun a => by rw [mem_dedupFirst, mem_dedupFirst]; exact h a)
  have h1 := List.perm_insertionSort (fun a b => a ≤ b) (dedupFirst l1)
  have h2 := List.perm_insertionSort (fun a b => a ≤ b) (dedupFirst l2)
  have hsorted := List.eq_of_perm_of_sorted ((h1.trans hperm).trans h2.symm)
    (List.sorted_insertionSort _ _) (List.sorted_insertionSort _ _)
  rw [hsorted]

/-- Witness for C8: `[5, 4, 5]` and `[4, 4, 5, 4]` present the same
identifier set and give identical page sequences. -/
theorem buildDetailPages_deterministic_on_set_witness :
    (∀ x : Nat, x ∈ [5, 4, 5] ↔ x ∈ [4, 4, 5, 4]) ∧
      buildDetailPages [5, 4, 5] = buildDetailPages [4, 4, 5, 4] :=
  ⟨fun x => by constructor <;> (intro hx; simp at hx ⊢; omega),
    buildDetailPages_deterministic_on_set [5, 4, 5] [4, 4, 5, 4]
      (fun x => by constructor <;> (intro hx; simp at hx ⊢; omega))⟩

/-- C1: for every nonempty collection of resolved groups with distinct
material ids, the rendered report has exactly one detail page per distinct
identifier appearing in any group's `resolvedIdentifiers` (even when an
identifier is shared between groups), every sharing group's directory
entry links to that identifier's single page, and there are no other
detail pages. -/
theorem render_one_detail_page_per_identifier (groups : List MaterialGroup)
    (hne : groups ≠ [])
    (hnd : (groups.map (fun g => g.materialId)).Nodup)
    (hres : ∀ g ∈ groups, g.resolved = true) :
    ∃ t, render groups = .ok t ∧
      (∀ i : Nat, (∃ g ∈ groups, i ∈ g.resolvedIdentifiers) →
        t.detailPages.count ⟨i⟩ = 1 ∧
        (∀ g ∈ groups, i ∈ g.resolvedIdentifiers →
          ∃ e ∈ t.directory.entries, e.materialId = g.materialId ∧
            e.name = g.name ∧ i ∈ e.links)) ∧
      (∀ p ∈ t.detailPages,
        ∃ g ∈ groups, p.identifier ∈ g.resolvedIdentifiers) := by
  have hisEmpty : groups.isEmpty = false := by
    cases groups with
    | nil => exact absurd rfl hne
    | cons a l => rfl
  have hall : groups.all (fun g => g.resolved) = true :=
    List.all_eq_true.2 (fun g hg => hres g hg)
  have hb : buildDirectory groups = .ok ⟨groups.map entryOf⟩ := by
    rw [buildDirectory, if_pos hall]
  have hrender : render groups =
      .ok ⟨⟨groups.map entryOf⟩, buildDetailPages (identifierUnion groups)⟩ := by
    rw [render, hisEmpty]
    rw [if_neg (by simp), if_pos hnd, hb]
  have hinj : Function.Injective (fun i : Nat => DetailPage.mk i) :=
    fun a b hab => congrArg DetailPage.identifier hab
  have hsortMem : ∀ i : Nat,
      i ∈ List.insertionSort (fun a b => a ≤ b)
          (dedupFirst (identifierUnion groups)) ↔
        i ∈ identifierUnion groups := by
    intro i
    rw [(List.perm_insertionSort (fun a b => a ≤ b)
      (dedupFirst (identifierUnion groups))).mem_iff]
    exact mem_dedupFirst
  have hmemPages : ∀ i : Nat,
      DetailPage.mk i ∈ buildDetailPages (identifierUnion groups) ↔
        i ∈ identifierUnion groups := by
    intro i
    unfold buildDetailPages
    rw [List.mem_map_of_injective hinj]
    exact hsortMem i
  have hpagesNodup : (buildDetailPages (identifierUnion groups)).Nodup := by
    unfold buildDetailPages
    exact List.Nodup.map hinj
      ((List.perm_insertionSort (fun a b => a ≤ b)
        (dedupFirst (identifierUnion groups))).nodup_iff.2
        (nodup_dedupFirst (identifierUnion groups)))
  refine ⟨_, hrender, ?_, ?_⟩
  · intro i hex
    have hiU : i ∈ identifierUnion groups :=
      (mem_identifierUnion groups i).2 hex
    refine ⟨List.count_eq_one_of_mem hpagesNodup ((hmemPages i).2 hiU), ?_⟩
    intro g hg hig
    exact ⟨entryOf g, List.mem_map_of_mem entryOf hg, rfl, rfl, hig⟩
  · intro p hp
    rcases List.mem_map.1 hp with ⟨j, hj, hmk⟩
    rcases (mem_identifierUnion groups j).1 ((hsortMem j).1 hj) with
      ⟨g, hg, hjg⟩
    refine ⟨g, hg, ?_⟩
    rw [← hmk]
    exact hjg

/-- Witness for C1: the end-to-end scenario — `foo_group` (id 1,
identifiers `[4, 5]`) and `bar_group` (id 2, identifiers `[5, 6]`) render
to a directory listing both groups and exactly three detail pages, for
identifiers 4, 5 and 6, with 5 linked from both entries. -/
theorem render_one_detail_page_per_identifier_witness :
    (([fooGroup, barGroup] : List MaterialGroup) ≠ [] ∧
        ([fooGroup, barGroup].map (fun g => g.materialId)).Nodup ∧
        (∀ g ∈ [fooGroup, barGroup], g.resolved = true)) ∧
      render [fooGroup, barGroup] =
        .ok ⟨⟨[⟨"foo_group", 1, 2, [4, 5]⟩, ⟨"bar_group", 2, 2, [5, 6]⟩]⟩,
          [⟨4⟩, ⟨5⟩, ⟨6⟩]⟩ ∧
      (∃ t, render [fooGroup, barGroup] = .ok t ∧
        (∀ i : Nat, (∃ g ∈ [fooGroup, barGroup], i ∈ g.resolvedIdentifiers) →
          t.detailPages.count ⟨i⟩ = 1 ∧
          (∀ g ∈ [fooGroup, barGroup], i ∈ g.resolvedIdentifiers →
            ∃ e ∈ t.directory.entries, e.materialId = g.materialId ∧
              e.name = g.name ∧ i ∈ e.links)) ∧
        (∀ p ∈ t.detailPages,
          ∃ g ∈ [fooGroup, barGroup], p.identifier ∈ g.resolvedIdentifiers)) :=
  ⟨⟨by decide, by decide, by decide⟩,
    by simp [render, buildDirectory, buildDetailPages, identifierUnion,
      fooGroup, barGroup, mkGroup, MaterialGroup.resolve, scenarioResolver,
      fooParams, barParams, entryOf, dedupFirst, par1Updates, par2Updates,
      updEntries, setKey],
    render_one_detail_page_per_identifier [fooGroup, barGroup]
      (by decide) (by decide) (by decide)⟩

end Metacamel
